import Mathlib

/-!
Verification development for the Windows IME context module
(`src/platform_impl/windows/ime.rs`).

Texts are modelled as lists of Unicode scalar values (`List Nat`), raw
platform buffers as lists of bytes (`List Nat`, each `< 256`), and UTF-16
buffers as lists of 16-bit code units.  Platform responses to the
size-probe-then-fill query protocol (`ImmGetCompositionStringW`,
`ImmGetCandidateListW`) are modelled as explicit structures recording the
probe result, the fill result and the bytes the platform writes.  Reads of
raw candidate-list memory are modelled with `Except Unit` so that an
out-of-bounds access is an explicit observable event.
-/

namespace Ime

/-- UTF-8 encoded length of one Unicode scalar value
(`char::len_utf8` in Rust). -/
def utf8Len (c : Nat) : Nat :=
  if c < 0x80 then 1
  else if c < 0x800 then 2
  else if c < 0x10000 then 3
  else 4

/-- UTF-8 byte length of a text given as scalar values
(`String::len` on the UTF-8 re-encoding). -/
def utf8LenStr : List Nat → Nat
  | [] => 0
  | c :: cs => utf8Len c + utf8LenStr cs

/-- UTF-8 encoding of one Unicode scalar value, as a byte list. -/
def encodeScalar (c : Nat) : List Nat :=
  if c < 0x80 then [c]
  else if c < 0x800 then [0xC0 + c / 64, 0x80 + c % 64]
  else if c < 0x10000 then
    [0xE0 + c / 4096, 0x80 + c / 64 % 64, 0x80 + c % 64]
  else
    [0xF0 + c / 262144, 0x80 + c / 4096 % 64, 0x80 + c / 64 % 64, 0x80 + c % 64]

/-- UTF-8 encoding of a text given as scalar values. -/
def encodeStr : List Nat → List Nat
  | [] => []
  | c :: cs => encodeScalar c ++ encodeStr cs

/-- Reinterpret a little-endian byte list as 16-bit code units
(the even-length case of `<[u8]>::align_to::<u16>` on x86). -/
def toU16s : List Nat → List Nat
  | b0 :: b1 :: rest => (b0 + 256 * b1) :: toU16s rest
  | _ => []

/-- Strict UTF-16 decoding to scalar values
(`OsString::from_wide` followed by `OsString::into_string`, which fails
exactly when the code-unit sequence contains an unpaired surrogate). -/
def decodeUtf16Strict : List Nat → Option (List Nat)
  | [] => some []
  | u :: rest =>
    if u < 0xD800 || 0xE000 ≤ u then
      (decodeUtf16Strict rest).map (u :: ·)
    else if u < 0xDC00 then
      match rest with
      | w :: rest2 =>
        if 0xDC00 ≤ w && w < 0xE000 then
          (decodeUtf16Strict rest2).map
            ((0x10000 + (u - 0xD800) * 0x400 + (w - 0xDC00)) :: ·)
        else none
      | [] => none
    else none

/-- Lossy UTF-16 decoding (`String::from_utf16_lossy`): any unpaired
surrogate becomes U+FFFD. -/
def decodeUtf16Lossy : List Nat → List Nat
  | [] => []
  | u :: rest =>
    if u < 0xD800 || 0xE000 ≤ u then
      u :: decodeUtf16Lossy rest
    else if u < 0xDC00 then
      match rest with
      | w :: rest2 =>
        if 0xDC00 ≤ w && w < 0xE000 then
          (0x10000 + (u - 0xD800) * 0x400 + (w - 0xDC00)) :: decodeUtf16Lossy rest2
        else 0xFFFD :: decodeUtf16Lossy (w :: rest2)
      | [] => [0xFFFD]
    else 0xFFFD :: decodeUtf16Lossy rest

/-- Platform response to one size-probe-then-fill composition query
(`ImmGetCompositionStringW` for one `GCS_*` mode): result of the probe
call, result of the fill call, and the bytes the platform writes into the
caller's buffer during the fill. -/
structure QueryResp where
  probeSize : Int
  fillSize : Int
  bytes : List Nat
deriving DecidableEq, Repr

/-- `ImeContext::get_composition_data`: probe; a probe result of 0 yields
an empty buffer, a negative probe or fill result yields `none`, otherwise
the first `fillSize` written bytes. -/
def getCompositionData (q : QueryResp) : Option (List Nat) :=
  if q.probeSize = 0 then some []
  else if q.probeSize < 0 then none
  else if q.fillSize < 0 then none
  else some (q.bytes.take q.fillSize.toNat)

/-- `ImeContext::get_composition_string`: fetch raw bytes, reinterpret as
UTF-16 code units (rejecting a byte length not divisible into whole
units), and decode strictly. -/
def getCompositionString (q : QueryResp) : Option (List Nat) :=
  match getCompositionData q with
  | none => none
  | some data =>
    if data.length % 2 = 0 then decodeUtf16Strict (toU16s data)
    else none

/-- `ImeContext::get_composed_text`: the composition-string query in
`GCS_RESULTSTR` mode. -/
def getComposedText (q : QueryResp) : Option (List Nat) :=
  getCompositionString q

/-- `ImeContext::get_composition_cursor`: `cursor` is the raw
`ImmGetCompositionStringW(.., GCS_CURSORPOS, ..)` result; when
non-negative, sum the UTF-8 lengths of the first `cursor` scalar values of
`text`. -/
def getCompositionCursor (cursor : Int) (text : List Nat) : Option Nat :=
  if 0 ≤ cursor then some (utf8LenStr (text.take cursor.toNat)) else none

/-- `ATTR_TARGET_CONVERTED` (1) / `ATTR_TARGET_NOTCONVERTED` (3) test from
`get_composing_text_and_cursor`. -/
def targetted (a : Nat) : Bool :=
  a == 1 || a == 3

/-- The attribute/character walk of `get_composing_text_and_cursor`:
state is (first, last, running UTF-8 byte boundary). -/
def walk : List (Nat × Nat) → Option Nat → Option Nat → Nat →
    Option Nat × Option Nat × Nat
  | [], first, last, b => (first, last, b)
  | (attr, chr) :: rest, first, last, b =>
    if first.isNone && targetted attr then
      walk rest (some b) last (b + utf8Len chr)
    else if first.isSome && last.isNone && !targetted attr then
      walk rest first (some b) (b + utf8Len chr)
    else
      walk rest first last (b + utf8Len chr)

/-- Platform responses visible to `get_composing_text_and_cursor`:
the `GCS_COMPSTR` query, the `GCS_COMPATTR` query and the raw
`GCS_CURSORPOS` probe result. -/
structure ImePlatform where
  compstr : QueryResp
  compattr : QueryResp
  cursorpos : Int
deriving DecidableEq, Repr

/-- `ImeContext::get_composing_text_and_cursor`. -/
def getComposingTextAndCursor (p : ImePlatform) :
    Option (List Nat × Option Nat × Option Nat) :=
  match getCompositionString p.compstr with
  | none => none
  | some text =>
    let attrs := (getCompositionData p.compattr).getD []
    let r := walk (attrs.zip text) none none 0
    let first := r.1
    let last := r.2.1
    if first.isSome && last.isNone then
      some (text, first, some (utf8LenStr text))
    else if first.isNone then
      let c := getCompositionCursor p.cursorpos text
      some (text, c, c)
    else
      some (text, first, last)

/-! ### Candidate list

`get_candidate_list` reinterprets the raw buffer as a `CANDIDATELIST`
record (all fields 32-bit, little-endian: `dwSize` at byte 0, `dwStyle` at
4, `dwCount` at 8, `dwSelection` at 12, `dwPageStart` at 16, `dwPageSize`
at 20, the offset array at 24) and then follows each offset to a
null-terminated UTF-16 string.  Every raw memory read is modelled
explicitly; a read beyond the allocated buffer is `Except.error ()`. -/

instance exceptDecEq {ε α : Type} [DecidableEq ε] [DecidableEq α] :
    DecidableEq (Except ε α)
  | Except.error e, Except.error f =>
    if h : e = f then Decidable.isTrue (by rw [h])
    else Decidable.isFalse (by simp [h])
  | Except.error _, Except.ok _ => Decidable.isFalse (by simp)
  | Except.ok _, Except.error _ => Decidable.isFalse (by simp)
  | Except.ok a, Except.ok b =>
    if h : a = b then Decidable.isTrue (by rw [h])
    else Decidable.isFalse (by simp [h])

/-- Bounds-tracked read of a little-endian 32-bit field at byte offset
`off` of the allocated buffer. -/
def readU32 (buf : List Nat) (off : Nat) : Except Unit Nat :=
  if off + 4 ≤ buf.length then
    Except.ok (buf.getD off 0 + 256 * buf.getD (off + 1) 0 +
      65536 * buf.getD (off + 2) 0 + 16777216 * buf.getD (off + 3) 0)
  else Except.error ()

/-- The 16-bit code unit stored little-endian at byte offset `off`
(meaningful only when `off + 2 ≤ buf.length`). -/
def u16At (buf : List Nat) (off : Nat) : Nat :=
  buf.getD off 0 + 256 * buf.getD (off + 1) 0

/-- Fuel-indexed scan for a null code unit from byte offset `off`; the
fuel only bounds the recursion depth and, at `scanNull`'s instantiation,
always exceeds the number of in-bounds steps available. -/
def scanNullFuel (buf : List Nat) : Nat → Nat → Except Unit Nat
  | _, 0 => Except.error ()
  | off, fuel + 1 =>
    if off + 2 ≤ buf.length then
      if u16At buf off = 0 then Except.ok 0
      else (scanNullFuel buf (off + 2) fuel).map (· + 1)
    else Except.error ()

/-- The scan `(0..isize::MAX).position(|i| *p.offset(i) == 0)` from byte
offset `off`: number of code units before the first null.  Each code-unit
read is bounds-tracked, so a scan that leaves the allocated buffer before
finding a null is an out-of-bounds event. -/
def scanNull (buf : List Nat) (off : Nat) : Except Unit Nat :=
  scanNullFuel buf off (buf.length + 1)

/-- The `len` code units starting at byte offset `off`. -/
def u16SliceAt (buf : List Nat) (off len : Nat) : List Nat :=
  (List.range len).map (fun j => u16At buf (off + 2 * j))

/-- The body of the `for i in 0..dwCount` loop of `get_candidate_list`,
over the remaining entry indices: read `dwOffset[i]` (a 32-bit field at
byte `24 + 4 * i`), scan for the terminating null from that offset, and
decode the slice lossily. -/
def candidateEntries (buf : List Nat) : List Nat → Except Unit (List (List Nat))
  | [] => Except.ok []
  | i :: rest => do
    let off ← readU32 buf (24 + 4 * i)
    let len ← scanNull buf off
    let others ← candidateEntries buf rest
    pure (decodeUtf16Lossy (u16SliceAt buf off len) :: others)

/-- `ImeContext::get_candidate_list`: the size probe reports
`buf.length`; a zero probe or a zero fill result returns `none`;
otherwise the buffer is reinterpreted as a `CANDIDATELIST` (reading
`dwCount` at byte 8) and each of the `dwCount` entries is followed.
`Except.error ()` marks an out-of-bounds memory read. -/
def getCandidateList (fillRet : Nat) (buf : List Nat) :
    Except Unit (Option (List (List Nat))) :=
  if buf.length = 0 then Except.ok none
  else if fillRet = 0 then Except.ok none
  else do
    let count ← readU32 buf 8
    let entries ← candidateEntries buf (List.range count)
    pure (some entries)

/-! ### Platform-call traces

For the resource-release and no-op claims, each method is also modelled by
the sequence of platform calls it performs, faithful to its branch
structure. -/

/-- The platform entry points the module can invoke. -/
inductive Call where
  | immGetContext
  | immReleaseContext
  | immGetCompositionString
  | immGetCandidateList
  | immSetCandidateWindow (x y : Int)
  | immAssociateContextEx (flag : Nat)
  | getSystemMetrics
deriving DecidableEq, Repr

/-- `IACE_DEFAULT`. -/
def IACE_DEFAULT : Nat := 0x0010

/-- `IACE_CHILDREN`. -/
def IACE_CHILDREN : Nat := 0x0001

/-- `ImeContext::system_has_ime`: `GetSystemMetrics(SM_IMMENABLED) != 0`,
where `metric` is the value the platform reports. -/
def systemHasIme (metric : Int) : Bool :=
  metric != 0

/-- Calls made by `ImeContext::set_ime_position`: the capability probe,
then (only when IME is enabled) `ImmSetCandidateWindow` at the physical
position `(x, y)`. -/
def setImePositionCalls (metric : Int) (x y : Int) : List Call :=
  Call.getSystemMetrics ::
    (if systemHasIme metric then [Call.immSetCandidateWindow x y] else [])

/-- Calls made by `ImeContext::set_ime_allowed`: the capability probe,
then (only when IME is enabled) `ImmAssociateContextEx` with
`IACE_DEFAULT` or `IACE_CHILDREN`. -/
def setImeAllowedCalls (metric : Int) (allowed : Bool) : List Call :=
  Call.getSystemMetrics ::
    (if systemHasIme metric then
      [Call.immAssociateContextEx (if allowed then IACE_DEFAULT else IACE_CHILDREN)]
    else [])

/-- Calls made by `ImeContext::get_composition_data`: the size probe,
then the fill only when the probe reported a positive size. -/
def getCompositionDataCalls (q : QueryResp) : List Call :=
  Call.immGetCompositionString ::
    (if q.probeSize = 0 then []
    else if q.probeSize < 0 then []
    else [Call.immGetCompositionString])

/-- Calls made by `ImeContext::get_composition_string`. -/
def getCompositionStringCalls (q : QueryResp) : List Call :=
  getCompositionDataCalls q

/-- Calls made by `ImeContext::get_composed_text`. -/
def getComposedTextCalls (q : QueryResp) : List Call :=
  getCompositionStringCalls q

/-- Calls made by `ImeContext::get_composition_cursor`. -/
def getCompositionCursorCalls : List Call :=
  [Call.immGetCompositionString]

/-- Calls made by `ImeContext::get_composing_text_and_cursor`: the
`GCS_COMPSTR` query; when it yields text, the `GCS_COMPATTR` query; and
the `GCS_CURSORPOS` probe only on the no-targeted-run fallback path. -/
def getComposingTextAndCursorCalls (p : ImePlatform) : List Call :=
  getCompositionStringCalls p.compstr ++
    match getCompositionString p.compstr with
    | none => []
    | some text =>
      getCompositionDataCalls p.compattr ++
        (let attrs := (getCompositionData p.compattr).getD []
         let r := walk (attrs.zip text) none none 0
         if r.1.isNone then getCompositionCursorCalls else [])

/-- Calls made by `ImeContext::get_candidate_list`: the size probe, then
the fill only when the probe reported a nonzero size. -/
def getCandidateListCalls (buf : List Nat) : List Call :=
  Call.immGetCandidateList ::
    (if buf.length = 0 then [] else [Call.immGetCandidateList])

/-- Calls made by `ImeContext::current`. -/
def currentCalls : List Call :=
  [Call.immGetContext]

/-- Calls made by `<ImeContext as Drop>::drop`: the single
`ImmReleaseContext`. -/
def dropCalls : List Call :=
  [Call.immReleaseContext]

/-- One invocation of a method on a live `ImeContext` (or of the static
`set_ime_allowed`), together with the platform responses it observes. -/
inductive MethodOp where
  | composingTextAndCursor (p : ImePlatform)
  | composedText (q : QueryResp)
  | candidateList (fillRet : Nat) (buf : List Nat)
  | imePosition (metric x y : Int)
  | imeAllowed (metric : Int) (allowed : Bool)
deriving Repr

/-- The calls one method invocation performs. -/
def opCalls : MethodOp → List Call
  | MethodOp.composingTextAndCursor p => getComposingTextAndCursorCalls p
  | MethodOp.composedText q => getComposedTextCalls q
  | MethodOp.candidateList _ buf => getCandidateListCalls buf
  | MethodOp.imePosition metric x y => setImePositionCalls metric x y
  | MethodOp.imeAllowed metric allowed => setImeAllowedCalls metric allowed

/-- The platform calls over one `ImeContext` instance's whole lifetime:
acquisition by `ImeContext::current`, any sequence of method invocations,
and the `Drop` implementation, which Rust runs exactly once when the
owning scope exits (the struct does not implement `Copy`, so the handle
is never duplicated). -/
def lifetimeTrace (ops : List MethodOp) : List Call :=
  currentCalls ++ (ops.map opCalls).flatten ++ dropCalls

/-! ### Helper lemmas -/

theorem utf8LenStr_append (l1 l2 : List Nat) :
    utf8LenStr (l1 ++ l2) = utf8LenStr l1 + utf8LenStr l2 := by
  induction l1 with
  | nil => simp [utf8LenStr]
  | cons c cs ih => simp [utf8LenStr, ih, Nat.add_assoc]

theorem length_encodeScalar (c : Nat) :
    (encodeScalar c).length = utf8Len c := by
  unfold encodeScalar utf8Len
  split <;> simp_all
  split <;> simp_all
  split <;> simp_all

theorem encodeStr_append (l1 l2 : List Nat) :
    encodeStr (l1 ++ l2) = encodeStr l1 ++ encodeStr l2 := by
  induction l1 with
  | nil => simp [encodeStr]
  | cons c cs ih => simp [encodeStr, ih]

theorem length_encodeStr (l : List Nat) :
    (encodeStr l).length = utf8LenStr l := by
  induction l with
  | nil => simp [encodeStr, utf8LenStr]
  | cons c cs ih => simp [encodeStr, utf8LenStr, length_encodeScalar, ih]

theorem utf8LenStr_map_snd_zip :
    ∀ (a t : List Nat), a.length = t.length →
      utf8LenStr ((a.zip t).map Prod.snd) = utf8LenStr t
  | [], [], _ => rfl
  | [], _ :: _, h => absurd h (by simp)
  | _ :: _, [], h => absurd h (by simp)
  | _ :: a, c :: t, h => by
    have ih := utf8LenStr_map_snd_zip a t (by simpa using h)
    rw [List.zip_cons_cons, List.map_cons]
    simp only [utf8LenStr]
    rw [ih]

theorem walk_cons_skip (a c : Nat) (rest : List (Nat × Nat)) (b : Nat)
    (ha : targetted a = false) :
    walk ((a, c) :: rest) none none b =
      walk rest none none (b + utf8Len c) := by
  simp [walk, ha]

theorem walk_cons_enter (a c : Nat) (rest : List (Nat × Nat))
    (last : Option Nat) (b : Nat) (ha : targetted a = true) :
    walk ((a, c) :: rest) none last b =
      walk rest (some b) last (b + utf8Len c) := by
  simp [walk, ha]

theorem walk_cons_stay (a c : Nat) (rest : List (Nat × Nat)) (f b : Nat)
    (ha : targetted a = true) :
    walk ((a, c) :: rest) (some f) none b =
      walk rest (some f) none (b + utf8Len c) := by
  simp [walk, ha]

theorem walk_cons_close (a c : Nat) (rest : List (Nat × Nat)) (f b : Nat)
    (ha : targetted a = false) :
    walk ((a, c) :: rest) (some f) none b =
      walk rest (some f) (some b) (b + utf8Len c) := by
  simp [walk, ha]

theorem walk_cons_done (a c : Nat) (rest : List (Nat × Nat)) (f g b : Nat) :
    walk ((a, c) :: rest) (some f) (some g) b =
      walk rest (some f) (some g) (b + utf8Len c) := by
  simp [walk]

theorem walk_skip_untargetted :
    ∀ (l : List (Nat × Nat)) (rest : List (Nat × Nat)) (b : Nat),
      (∀ p ∈ l, targetted p.1 = false) →
      walk (l ++ rest) none none b =
        walk rest none none (b + utf8LenStr (l.map Prod.snd))
  | [], rest, b, _ => by simp [utf8LenStr]
  | (a, c) :: l, rest, b, h => by
    have ha : targetted a = false := h (a, c) (List.mem_cons_self _ _)
    rw [List.cons_append, walk_cons_skip a c _ _ ha,
      walk_skip_untargetted l rest (b + utf8Len c)
        (fun p hp => h p (List.mem_cons_of_mem _ hp))]
    simp [utf8LenStr, Nat.add_assoc]

theorem walk_in_run :
    ∀ (l : List (Nat × Nat)) (rest : List (Nat × Nat)) (f b : Nat),
      (∀ p ∈ l, targetted p.1 = true) →
      walk (l ++ rest) (some f) none b =
        walk rest (some f) none (b + utf8LenStr (l.map Prod.snd))
  | [], rest, f, b, _ => by simp [utf8LenStr]
  | (a, c) :: l, rest, f, b, h => by
    have ha : targetted a = true := h (a, c) (List.mem_cons_self _ _)
    rw [List.cons_append, walk_cons_stay a c _ f _ ha,
      walk_in_run l rest f (b + utf8Len c)
        (fun p hp => h p (List.mem_cons_of_mem _ hp))]
    simp [utf8LenStr, Nat.add_assoc]

theorem walk_both_set :
    ∀ (l : List (Nat × Nat)) (f g b : Nat),
      walk l (some f) (some g) b =
        (some f, some g, b + utf8LenStr (l.map Prod.snd))
  | [], f, g, b => by simp [walk, utf8LenStr]
  | (a, c) :: l, f, g, b => by
    rw [walk_cons_done a c l f g b, walk_both_set l f g (b + utf8Len c)]
    simp [utf8LenStr, Nat.add_assoc]

/-- `walk` over a sequence that is one untargeted block, one nonempty
targeted block, and one untargeted tail: the first targeted unit fixes
`first`, the first untargeted unit after the run fixes `last` (or leaves
it `none` when the run reaches the end). -/
theorem walk_single_run (z1 z2 z3 : List (Nat × Nat))
    (h1 : ∀ p ∈ z1, targetted p.1 = false)
    (h2 : z2 ≠ []) (h2t : ∀ p ∈ z2, targetted p.1 = true)
    (h3 : ∀ p ∈ z3, targetted p.1 = false) :
    (walk (z1 ++ z2 ++ z3) none none 0).1 =
        some (utf8LenStr (z1.map Prod.snd)) ∧
      (walk (z1 ++ z2 ++ z3) none none 0).2.1 =
        (if z3 = [] then none
         else some (utf8LenStr (z1.map Prod.snd) + utf8LenStr (z2.map Prod.snd))) := by
  obtain ⟨⟨a, c⟩, z2', rfl⟩ : ∃ p z2', z2 = p :: z2' := by
    cases z2 with
    | nil => exact absurd rfl h2
    | cons p z2' => exact ⟨p, z2', rfl⟩
  have ha : targetted a = true := h2t (a, c) (List.mem_cons_self _ _)
  have h2t' : ∀ p ∈ z2', targetted p.1 = true :=
    fun p hp => h2t p (List.mem_cons_of_mem _ hp)
  rw [List.append_assoc, walk_skip_untargetted z1 _ 0 h1, List.cons_append,
    walk_cons_enter a c _ _ _ ha, walk_in_run z2' z3 _ _ h2t']
  cases z3 with
  | nil =>
    simp [walk, utf8LenStr, Nat.add_assoc]
  | cons q z3' =>
    obtain ⟨a', c'⟩ := q
    have ha' : targetted a' = false := h3 (a', c') (List.mem_cons_self _ _)
    rw [walk_cons_close a' c' _ _ _ ha', walk_both_set]
    simp [utf8LenStr, Nat.add_assoc]

/-- Unfolding of `getComposingTextAndCursor` once the `GCS_COMPSTR` query
has yielded text. -/
theorem getComposingTextAndCursor_eq (p : ImePlatform) (text : List Nat)
    (h : getCompositionString p.compstr = some text) :
    getComposingTextAndCursor p =
      (let attrs := (getCompositionData p.compattr).getD []
       let r := walk (attrs.zip text) none none 0
       if r.1.isSome && r.2.1.isNone then
         some (text, r.1, some (utf8LenStr text))
       else if r.1.isNone then
         let c := getCompositionCursor p.cursorpos text
         some (text, c, c)
       else
         some (text, r.1, r.2.1)) := by
  unfold getComposingTextAndCursor
  rw [h]

theorem release_not_in_opCalls (op : MethodOp) :
    Call.immReleaseContext ∉ opCalls op := by
  cases op with
  | composingTextAndCursor p =>
    simp only [opCalls, getComposingTextAndCursorCalls, getCompositionStringCalls,
      getCompositionDataCalls, getCompositionCursorCalls, List.mem_append,
      List.mem_cons, List.mem_singleton]
    repeat' split
    all_goals simp_all
  | composedText q =>
    simp only [opCalls, getComposedTextCalls, getCompositionStringCalls,
      getCompositionDataCalls, List.mem_cons]
    split <;> simp_all
  | candidateList fillRet buf =>
    simp only [opCalls, getCandidateListCalls, List.mem_cons]
    split <;> simp_all
  | imePosition metric x y =>
    simp only [opCalls, setImePositionCalls, List.mem_cons]
    split <;> simp_all
  | imeAllowed metric allowed =>
    simp only [opCalls, setImeAllowedCalls, List.mem_cons]
    split <;> simp_all

/-! ### Claim theorems -/

/-- C1 (code bug): `get_candidate_list` does not bounds-check the
per-entry offsets.  On a well-formed 28-byte `CANDIDATELIST` whose single
entry offset (28) points exactly past the allocated buffer — Scenario D of
the specification — the null scan dereferences memory beyond the buffer:
the model reports an out-of-bounds read instead of the claimed `None`. -/
theorem C1_candidate_offset_past_buffer_reads_out_of_bounds :
    getCandidateList 1
        [28, 0, 0, 0, 0, 0, 0, 0, 1, 0, 0, 0, 0, 0, 0, 0,
         0, 0, 0, 0, 0, 0, 0, 0, 28, 0, 0, 0] =
      Except.error () := by
  decide

/-- C2 (counterexample): when the `GCS_RESULTSTR` size probe reports
exactly 0, `get_composed_text` returns `Some` of the empty string, not
`None` as the claim states. -/
theorem C2_counterexample_probe_zero_yields_empty_string :
    getComposedText ⟨0, 0, []⟩ = some [] ∧
      getComposedText ⟨0, 0, []⟩ ≠ none := by
  decide

/-- C2 (amended): if the size probe for the finalized-text
(`GCS_RESULTSTR`) query reports exactly 0, `get_composed_text` returns
`Some` of the empty string (the zero-size reply becomes an empty buffer,
which decodes to empty text), not `None`. -/
theorem C2_probe_zero_gives_some_empty (q : QueryResp)
    (h : q.probeSize = 0) : getComposedText q = some [] := by
  unfold getComposedText getCompositionString getCompositionData
  rw [if_pos h]
  decide

/-- C2 witness. -/
theorem C2_probe_zero_gives_some_empty_witness :
    getComposedText ⟨0, 37, [1, 2, 3]⟩ = some [] :=
  C2_probe_zero_gives_some_empty ⟨0, 37, [1, 2, 3]⟩ rfl

/-- C6: `get_composition_string` returns `None` whenever the raw byte
buffer's length is odd (not divisible into whole UTF-16 code units) and
whenever strict UTF-16 decoding fails; moreover any returned string is
exactly the strict decoding, so this path never lossily substitutes
replacement characters. -/
theorem C6_composition_string_strict (q : QueryResp) (data : List Nat)
    (h : getCompositionData q = some data) :
    (data.length % 2 ≠ 0 → getCompositionString q = none) ∧
      (decodeUtf16Strict (toU16s data) = none → getCompositionString q = none) ∧
      (∀ s, getCompositionString q = some s →
        decodeUtf16Strict (toU16s data) = some s) := by
  have hq : getCompositionString q =
      if data.length % 2 = 0 then decodeUtf16Strict (toU16s data) else none := by
    unfold getCompositionString
    rw [h]
  refine ⟨fun hodd => ?_, fun hdec => ?_, fun s hs => ?_⟩
  · rw [hq, if_neg hodd]
  · rw [hq]
    by_cases he : data.length % 2 = 0 <;> simp [he, hdec]
  · rw [hq] at hs
    by_cases he : data.length % 2 = 0
    · rwa [if_pos he] at hs
    · rw [if_neg he] at hs
      exact absurd hs (by simp)

/-- C6 witness: a one-byte buffer is rejected. -/
theorem C6_composition_string_strict_witness :
    getCompositionString ⟨1, 1, [97]⟩ = none :=
  (C6_composition_string_strict ⟨1, 1, [97]⟩ [97] (by decide)).1 (by decide)

/-- C7: when the platform reports `SM_IMMENABLED == 0`, `set_ime_position`
and `set_ime_allowed` return after the capability probe alone — no
candidate-window or context-association platform call is made, so no
platform state is touched. -/
theorem C7_no_ime_means_no_op (metric x y : Int) (allowed : Bool)
    (h : metric = 0) :
    setImePositionCalls metric x y = [Call.getSystemMetrics] ∧
      setImeAllowedCalls metric allowed = [Call.getSystemMetrics] := by
  subst h
  simp [setImePositionCalls, setImeAllowedCalls, systemHasIme]

/-- C7 witness. -/
theorem C7_no_ime_means_no_op_witness :
    setImePositionCalls 0 5 7 = [Call.getSystemMetrics] ∧
      setImeAllowedCalls 0 true = [Call.getSystemMetrics] :=
  C7_no_ime_means_no_op 0 5 7 true rfl

/-- C9: a non-negative reported cursor position at least as large as the
number of scalar values of the text yields the full UTF-8 byte length —
the summation is clamped by `take` and never reads out of range. -/
theorem C9_cursor_clamped (cursor : Int) (text : List Nat)
    (h0 : 0 ≤ cursor) (h : text.length ≤ cursor.toNat) :
    getCompositionCursor cursor text = some (utf8LenStr text) := by
  unfold getCompositionCursor
  rw [if_pos h0, List.take_of_length_le h]

/-- C9 witness: cursor 5 on a 2-scalar text gives the full byte length. -/
theorem C9_cursor_clamped_witness :
    getCompositionCursor 5 [97, 12354] = some (utf8LenStr [97, 12354]) :=
  C9_cursor_clamped 5 [97, 12354] (by decide) (by decide)

/-- C3 (counterexample): the composition text U+10348 'a' has UTF-16
units `[0xD800, 0xDF48, 0x0061]`; the attribute sequence `[0, 0, 1]` has
the same unit length and exactly one contiguous targeted run (unit 2,
`ATTR_TARGET_CONVERTED`), whose UTF-8 byte range is `[4, 5)`.  The code
zips attributes against scalar values, not UTF-16 units, misses the run
and falls back to the cursor: it returns `(some 0, some 0)`, not the
claimed `(some 4, some 5)`. -/
theorem C3_counterexample_surrogate_pair_misalignment :
    getComposingTextAndCursor
        ⟨⟨6, 6, [0, 216, 72, 223, 97, 0]⟩, ⟨3, 3, [0, 0, 1]⟩, 0⟩ =
      some ([66376, 97], some 0, some 0) ∧
    getComposingTextAndCursor
        ⟨⟨6, 6, [0, 216, 72, 223, 97, 0]⟩, ⟨3, 3, [0, 0, 1]⟩, 0⟩ ≠
      some ([66376, 97], some 4, some 5) := by
  decide

/-- C3 (amended): for a composition text `t1 ++ t2 ++ t3` and an
attribute sequence `a1 ++ a2 ++ a3` with one attribute per Unicode scalar
value (blockwise equal lengths), where `a2` is the single contiguous
targeted run, `get_composing_text_and_cursor` returns the text together
with `start` = the UTF-8 byte offset at which the run begins and `end` =
the byte offset just after the run; the UTF-8 re-encoding of the text
restricted to `[start, end)` is exactly the targeted substring. -/
theorem C3_single_run_brackets_target (p : ImePlatform)
    (t1 t2 t3 a1 a2 a3 : List Nat)
    (h : getCompositionString p.compstr = some (t1 ++ t2 ++ t3))
    (ha : (getCompositionData p.compattr).getD [] = a1 ++ a2 ++ a3)
    (hl1 : a1.length = t1.length) (hl2 : a2.length = t2.length)
    (hl3 : a3.length = t3.length)
    (h1 : ∀ a ∈ a1, targetted a = false)
    (h2 : a2 ≠ []) (h2t : ∀ a ∈ a2, targetted a = true)
    (h3 : ∀ a ∈ a3, targetted a = false) :
    getComposingTextAndCursor p =
        some (t1 ++ t2 ++ t3, some (utf8LenStr t1),
          some (utf8LenStr t1 + utf8LenStr t2)) ∧
      ((encodeStr (t1 ++ t2 ++ t3)).drop (utf8LenStr t1)).take (utf8LenStr t2)
        = encodeStr t2 := by
  have hzip : (a1 ++ a2 ++ a3).zip (t1 ++ t2 ++ t3) =
      a1.zip t1 ++ a2.zip t2 ++ a3.zip t3 := by
    rw [List.append_assoc a1, List.append_assoc t1, List.zip_append hl1,
      List.zip_append hl2, ← List.append_assoc]
  have hm1 : ∀ q ∈ a1.zip t1, targetted q.1 = false :=
    fun q hq => h1 q.1 (List.of_mem_zip (by exact hq)).1
  have hm2 : ∀ q ∈ a2.zip t2, targetted q.1 = true :=
    fun q hq => h2t q.1 (List.of_mem_zip (by exact hq)).1
  have hm3 : ∀ q ∈ a3.zip t3, targetted q.1 = false :=
    fun q hq => h3 q.1 (List.of_mem_zip (by exact hq)).1
  have hne : a2.zip t2 ≠ [] := by
    intro hnil
    apply h2
    have hlen := congrArg List.length hnil
    rw [List.length_zip, hl2, Nat.min_self, List.length_nil] at hlen
    exact List.eq_nil_of_length_eq_zero (hl2.trans hlen)
  have hw := walk_single_run (a1.zip t1) (a2.zip t2) (a3.zip t3) hm1 hne hm2 hm3
  have hs1 : utf8LenStr ((a1.zip t1).map Prod.snd) = utf8LenStr t1 :=
    utf8LenStr_map_snd_zip a1 t1 hl1
  have hs2 : utf8LenStr ((a2.zip t2).map Prod.snd) = utf8LenStr t2 :=
    utf8LenStr_map_snd_zip a2 t2 hl2
  rw [hs1, hs2] at hw
  have henc : ((encodeStr (t1 ++ t2 ++ t3)).drop (utf8LenStr t1)).take
      (utf8LenStr t2) = encodeStr t2 := by
    rw [encodeStr_append, encodeStr_append, List.append_assoc,
      ← length_encodeStr t1, List.drop_left, ← length_encodeStr t2,
      List.take_left]
  refine ⟨?_, henc⟩
  rw [getComposingTextAndCursor_eq p _ h]
  simp only [ha, hzip]
  have hw1 := hw.1
  have hw2 := hw.2
  by_cases h3nil : a3.zip t3 = []
  · rw [h3nil, List.append_nil] at hw1 hw2
    rw [if_pos rfl] at hw2
    have hlen3 := congrArg List.length h3nil
    rw [List.length_zip, hl3, Nat.min_self, List.length_nil] at hlen3
    have ht3 : t3 = [] := List.eq_nil_of_length_eq_zero hlen3
    subst ht3
    rw [h3nil, List.append_nil]
    simp only [hw1, hw2, Option.isSome_some, Option.isNone_none, Bool.and_self,
      if_true, List.append_nil, utf8LenStr_append]
  · rw [if_neg h3nil] at hw2
    simp only [hw1, hw2, Option.isSome_some, Option.isNone_some, Bool.and_false,
      Bool.false_and, Option.isNone_none]
    simp

/-- C3 witness: text "abc" with attributes `[0, 1, 0]` — the run is the
middle scalar, bracketed by byte offsets 1 and 2. -/
theorem C3_single_run_brackets_target_witness :
    getComposingTextAndCursor
        ⟨⟨6, 6, [97, 0, 98, 0, 99, 0]⟩, ⟨3, 3, [0, 1, 0]⟩, 0⟩ =
        some ([97] ++ [98] ++ [99], some (utf8LenStr [97]),
          some (utf8LenStr [97] + utf8LenStr [98])) ∧
      ((encodeStr ([97] ++ [98] ++ [99])).drop (utf8LenStr [97])).take
          (utf8LenStr [98]) = encodeStr [98] :=
  C3_single_run_brackets_target
    ⟨⟨6, 6, [97, 0, 98, 0, 99, 0]⟩, ⟨3, 3, [0, 1, 0]⟩, 0⟩
    [97] [98] [99] [0] [1] [0] (by decide) (by decide) (by decide) (by decide)
    (by decide) (by decide) (by decide) (by decide) (by decide)

/-- C4: when the fetched attribute sequence (empty when the attribute
fetch fails) contains no targeted units, both offsets equal the cursor
byte offset — the sum of UTF-8 lengths of the first `cursorpos` scalar
values — and both are `None` when the platform reports a negative cursor
value. -/
theorem C4_no_target_falls_back_to_cursor (p : ImePlatform) (text : List Nat)
    (h : getCompositionString p.compstr = some text)
    (hattr : ∀ a ∈ (getCompositionData p.compattr).getD [], targetted a = false) :
    getComposingTextAndCursor p =
      some (text,
        (if 0 ≤ p.cursorpos
         then some (utf8LenStr (text.take p.cursorpos.toNat)) else none),
        (if 0 ≤ p.cursorpos
         then some (utf8LenStr (text.take p.cursorpos.toNat)) else none)) := by
  have hz : ∀ q ∈ ((getCompositionData p.compattr).getD []).zip text,
      targetted q.1 = false :=
    fun q hq => hattr q.1 (List.of_mem_zip (by exact hq)).1
  have hw := walk_skip_untargetted
    (((getCompositionData p.compattr).getD []).zip text) [] 0 hz
  rw [List.append_nil] at hw
  rw [getComposingTextAndCursor_eq p text h]
  simp [hw, walk, getCompositionCursor]

/-- C4 witness: text "ab", attribute fetch failed (negative probe),
cursor reported at 1: both offsets are the cursor byte offset 1. -/
theorem C4_no_target_falls_back_to_cursor_witness :
    getComposingTextAndCursor ⟨⟨4, 4, [97, 0, 98, 0]⟩, ⟨-1, 0, []⟩, 1⟩ =
      some ([97, 98], some 1, some 1) := by
  have := C4_no_target_falls_back_to_cursor
    ⟨⟨4, 4, [97, 0, 98, 0]⟩, ⟨-1, 0, []⟩, 1⟩ [97, 98] (by decide) (by decide)
  simpa using this

/-- C5: when the first contiguous targeted run extends to the end of the
zipped attribute/text sequence, the returned end offset is the total
UTF-8 byte length of the text. -/
theorem C5_run_to_end (p : ImePlatform) (text : List Nat)
    (z1 z2 : List (Nat × Nat))
    (h : getCompositionString p.compstr = some text)
    (hz : ((getCompositionData p.compattr).getD []).zip text = z1 ++ z2)
    (h1 : ∀ q ∈ z1, targetted q.1 = false)
    (h2 : z2 ≠ []) (h2t : ∀ q ∈ z2, targetted q.1 = true) :
    getComposingTextAndCursor p =
      some (text, some (utf8LenStr (z1.map Prod.snd)),
        some (utf8LenStr text)) := by
  have hw := walk_single_run z1 z2 [] h1 h2 h2t (by simp)
  rw [List.append_nil] at hw
  simp only [if_pos rfl] at hw
  rw [getComposingTextAndCursor_eq p text h]
  simp only [hz, hw.1, hw.2, Option.isSome_some, Option.isNone_none,
    Bool.and_self, if_true]

/-- C5 witness: text "ab" with attributes `[0, 1]` — the run reaches the
end, so the end offset is the full byte length 2. -/
theorem C5_run_to_end_witness :
    getComposingTextAndCursor ⟨⟨4, 4, [97, 0, 98, 0]⟩, ⟨2, 2, [0, 1]⟩, 0⟩ =
      some ([97, 98], some (utf8LenStr ([(0, 97)].map Prod.snd)),
        some (utf8LenStr [97, 98])) :=
  C5_run_to_end ⟨⟨4, 4, [97, 0, 98, 0]⟩, ⟨2, 2, [0, 1]⟩, 0⟩ [97, 98]
    [(0, 97)] [(1, 98)] (by decide) (by decide) (by decide) (by decide)
    (by decide)

/-- C8: over an `ImeContext` instance's whole lifetime — acquisition via
`ImeContext::current`, any sequence of method invocations with any
platform responses, and the `Drop` implementation — `ImmReleaseContext`
is invoked exactly once, namely by `Drop`; no query or setter ever
releases the handle, so a query that fails mid-call cannot cause a second
or a missing release. -/
theorem C8_release_exactly_once (ops : List MethodOp) :
    (lifetimeTrace ops).count Call.immReleaseContext = 1 := by
  have h : ((ops.map opCalls).flatten).count Call.immReleaseContext = 0 := by
    induction ops with
    | nil => simp
    | cons op ops ih =>
      simp [List.count_append, ih,
        List.count_eq_zero.mpr (release_not_in_opCalls op)]
  unfold lifetimeTrace currentCalls dropCalls
  rw [List.count_append, List.count_append, h]
  decide

/-- C10: when the size probe is nonzero, the fill succeeds and the
buffer's `dwCount` field reads as 0, `get_candidate_list` returns `Some`
of the empty candidate sequence, not `None`. -/
theorem C10_zero_count_gives_empty_list (fillRet : Nat) (buf : List Nat)
    (hlen : buf.length ≠ 0) (hfill : fillRet ≠ 0)
    (hcount : readU32 buf 8 = Except.ok 0) :
    getCandidateList fillRet buf = Except.ok (some []) := by
  unfold getCandidateList
  rw [if_neg hlen, if_neg hfill, hcount]
  rfl

/-- C10 witness: a 12-byte all-zero buffer (`dwCount = 0`) with a
successful fill. -/
theorem C10_zero_count_gives_empty_list_witness :
    getCandidateList 1 (List.replicate 12 0) = Except.ok (some []) :=
  C10_zero_count_gives_empty_list 1 (List.replicate 12 0)
    (by decide) (by decide) (by decide)

end Ime
